import Mathlib

/-!
Verification of the EMA computation and resilient-fetch pipeline of a
crypto EMA calculator widget (`src/Main.jsx`).

The numeric parts (`calculateEMA`, `getPricePosition`, the signal-summary
tally) are embedded as pure functions over `ℚ`; the retry loop
(`fetchWithRetry`) is embedded as a state-passing function over an
abstract sequence of HTTP attempt outcomes, recording the sleeps it
performs and the number of GET requests it issues.
-/

namespace EmaJsx

/-! ## EMA engine (`calculateEMA`, `src/Main.jsx` lines 100-112) -/

/-- JS: `let sum = 0; for (let i = 0; i < period; i++) { sum += prices[i]; }`
`sumLoop prices n` is the value of `sum` after `n` iterations; out-of-range
reads contribute `0` (in the source the guard keeps all reads in range). -/
def sumLoop (prices : List ℚ) : Nat → ℚ
  | 0 => 0
  | n + 1 => sumLoop prices n + prices.getD n 0

/-- JS: `for (let i = period; i < prices.length; i++) { ema = prices[i] * k + ema * (1 - k); }`
Fuel-indexed loop: `i` is the loop index, the fuel bounds the remaining
iterations (the caller passes `prices.length - i`, which is exact). -/
def emaLoop (prices : List ℚ) (k : ℚ) : Nat → Nat → ℚ → ℚ
  | _, 0, ema => ema
  | i, fuel + 1, ema =>
    if i < prices.length then
      emaLoop prices k (i + 1) fuel (prices.getD i 0 * k + ema * (1 - k))
    else
      ema

/-- JS `calculateEMA(prices, period)` (`src/Main.jsx` lines 100-112):
```
if (prices.length < period) return null;
const k = 2 / (period + 1);
let sum = 0;
for (let i = 0; i < period; i++) { sum += prices[i]; }
let ema = sum / period;
for (let i = period; i < prices.length; i++) { ema = prices[i] * k + ema * (1 - k); }
return ema;
```
`null` is embedded as `none`. -/
def calculateEMA (prices : List ℚ) (period : Nat) : Option ℚ :=
  if prices.length < period then
    none
  else
    let k : ℚ := 2 / ((period : ℚ) + 1)
    let ema : ℚ := sumLoop prices period / (period : ℚ)
    some (emaLoop prices k period (prices.length - period) ema)

/-- The smoothing step `ema = p * k + ema * (1 - k)` used by the second loop of the source, as a fold step. -/
def emaStep (k : ℚ) (ema p : ℚ) : ℚ :=
  p * k + ema * (1 - k)

theorem sumLoop_eq_sum_take (prices : List ℚ) (n : Nat) :
    sumLoop prices n = (prices.take n).sum := by
  induction n with
  | zero => simp [sumLoop]
  | succ n ih =>
    rw [sumLoop, ih, List.take_succ, List.sum_append]
    rcases h : prices[n]? with _ | a
    · have hlen : prices.length ≤ n := by
        simpa using List.getElem?_eq_none_iff.mp h
      simp [List.getD_eq_default _ _ hlen, h]
    · have hlt : n < prices.length := by
        by_contra hge
        rw [List.getElem?_eq_none_iff.mpr (Nat.le_of_not_lt hge)] at h
        cases h
      have := List.getD_eq_getElem prices 0 hlt
      simp_all

theorem emaLoop_eq_foldl (prices : List ℚ) (k : ℚ) :
    ∀ (fuel i : Nat) (ema : ℚ), prices.length ≤ i + fuel →
      emaLoop prices k i fuel ema = (prices.drop i).foldl (emaStep k) ema := by
  intro fuel
  induction fuel with
  | zero =>
    intro i ema h
    rw [emaLoop, List.drop_eq_nil_of_le (by simpa using h), List.foldl_nil]
  | succ fuel ih =>
    intro i ema h
    rw [emaLoop]
    by_cases hi : i < prices.length
    · rw [if_pos hi, List.drop_eq_getElem_cons hi, List.foldl_cons,
        ih (i + 1) _ (by omega), List.getD_eq_getElem prices 0 hi]
      rfl
    · rw [if_neg hi, List.drop_eq_nil_of_le (Nat.le_of_not_lt hi), List.foldl_nil]

/-- Characterization of `calculateEMA` for positive periods: absent iff the
series is shorter than the period; otherwise the fold of the smoothing step
over the tail, seeded with the mean of the first `period` prices. -/
theorem calculateEMA_eq (prices : List ℚ) (period : Nat) :
    calculateEMA prices period =
      if prices.length < period then none
      else
        some ((prices.drop period).foldl (emaStep (2 / ((period : ℚ) + 1)))
          ((prices.take period).sum / (period : ℚ))) := by
  unfold calculateEMA
  by_cases h : prices.length < period
  · rw [if_pos h, if_pos h]
  · rw [if_neg h, if_neg h]
    simp only [sumLoop_eq_sum_take]
    rw [emaLoop_eq_foldl prices _ (prices.length - period) period _ (by omega)]

/-! ## EMA result mapping (`fetchMarketData`, `src/Main.jsx` lines 139-142) -/

/-- The fixed working set of periods: `const emaPeriods = [7, 9, 20, 25, 50, 100, 200];`. -/
def emaPeriods : List Nat := [7, 9, 20, 25, 50, 100, 200]

/-- One entry of the `emaValues` mapping built in `fetchMarketData`:
`emaValues[period] = prices.length >= period ? calculateEMA(prices, period) : null;`. -/
def emaEntry (prices : List ℚ) (period : Nat) : Option ℚ :=
  if period ≤ prices.length then calculateEMA prices period else none

/-- The full `emaValues` mapping: `for (const period of emaPeriods) { ... }`. -/
def computeEmaValues (prices : List ℚ) : List (Nat × Option ℚ) :=
  emaPeriods.map (fun period => (period, emaEntry prices period))

/-! ## Price position (`getPricePosition`, `src/Main.jsx` lines 176-181) -/

inductive PricePosition
  | above
  | below
  | equal
  | unknown
deriving DecidableEq

/-- JS `getPricePosition(price, ema)`:
```
if (!ema) return "unknown";
if (price > ema) return "above";
if (price < ema) return "below";
return "equal";
```
`ema` is `null` or a number; the falsy test `!ema` is true both when `ema`
is `null` (embedded as `none`) and when it is the number `0`. -/
def getPricePosition (price : ℚ) : Option ℚ → PricePosition
  | none => .unknown
  | some e =>
    if e = 0 then .unknown
    else if price > e then .above
    else if price < e then .below
    else .equal

/-! ## Signal summary tally (`src/Main.jsx` lines 370-392) -/

/-- The counting loop of the signal summary:
```
let bullishCount = 0; let bearishCount = 0;
for (const period of emaPeriods) {
  const emaValue = emaResults.emas[period];
  if (!emaValue) continue;
  if (emaResults.currentPrice > emaValue) bullishCount++;
  else if (emaResults.currentPrice < emaValue) bearishCount++;
}
```
As in `getPricePosition`, the falsy test `!emaValue` also skips a present
value equal to `0`. Returns `(bullishCount, bearishCount)`. -/
def tallyCounts (currentPrice : ℚ) (emas : Nat → Option ℚ) : Nat × Nat :=
  emaPeriods.foldl
    (fun acc period =>
      match emas period with
      | none => acc
      | some e =>
        if e = 0 then acc
        else if currentPrice > e then (acc.1 + 1, acc.2)
        else if currentPrice < e then (acc.1, acc.2 + 1)
        else acc)
    (0, 0)

/-- `const bullishPercentage = totalSignals > 0 ? (bullishCount / totalSignals) * 100 : 0;`
with `totalSignals = bullishCount + bearishCount`. -/
def bullishPercentage (bullishCount bearishCount : Nat) : ℚ :=
  if 0 < bullishCount + bearishCount then
    ((bullishCount : ℚ) / ((bullishCount : ℚ) + (bearishCount : ℚ))) * 100
  else 0

inductive Signal
  | Bullish
  | Bearish
  | Neutral
deriving DecidableEq

/-- The label chain of the signal summary:
```
let overallSignal = "Neutral";
if (bullishPercentage > 60) overallSignal = "Bullish";
else if (bullishPercentage < 40) overallSignal = "Bearish";
```
-/
def overallSignal (pct : ℚ) : Signal :=
  if pct > 60 then .Bullish
  else if pct < 40 then .Bearish
  else .Neutral

/-! ## Resilient fetch (`fetchWithRetry`, `src/Main.jsx` lines 7-26)

The effectful loop is embedded as a function of an abstract attempt
oracle `attempts : Nat → FetchOutcome α` giving the outcome of the GET
issued on iteration `i`. The embedding returns the produced value
together with the list of sleep durations (in milliseconds, in order)
and the number of GET requests issued. -/

/-- An error value thrown inside `fetchWithRetry`: the `new Error` built
from a non-ok response (`HTTP <status>: <statusText>`), or a network-level
failure of `fetch` itself. -/
inductive JsError
  | httpError (status : Nat) (statusText : String)
  | networkError
deriving DecidableEq

/-- How a call to `fetchWithRetry` ends: returning a parsed body,
throwing an error to the caller, or falling off the end of the `for`
loop (JS: the async function resolves to `undefined`). -/
inductive FetchResult (α : Type)
  | success (body : α)
  | thrown (e : JsError)
  | undef
deriving DecidableEq

/-- Outcome of one GET attempt: the promise rejects (network failure), or
a response arrives with a status, status text, an optional `Retry-After`
header value (in seconds; `none` when the header is absent) and a body. -/
inductive FetchOutcome (α : Type)
  | networkFailure
  | response (status : Nat) (statusText : String) (retryAfter : Option Nat) (body : α)

/-- The body of of the `for (let i = 0; i < retries; i++)` loop in `fetchWithRetry`,
loop, from index `i` with `fuel = retries - i` iterations left:
```
try {
  const response = await fetch(url);
  if (response.status === 429) {
    const retryAfter = response.headers.get("Retry-After") || backoff * Math.pow(2, i);
    await delay(retryAfter * 1000);
    continue;
  }
  if (!response.ok) throw new Error(`HTTP ...`);
  return await response.json();
} catch (err) {
  if (i === retries - 1) throw err;
  await delay(backoff * Math.pow(2, i));
}
```
`response.ok` is `200 <= status <= 299`. Both the network failure and the
`HTTP` error thrown on a non-ok status land in the `catch` block, which
rethrows on the last iteration and otherwise sleeps and continues. -/
def fetchAux {α : Type} (attempts : Nat → FetchOutcome α) (retries backoff : Nat) :
    Nat → Nat → FetchResult α × List Nat × Nat
  | _, 0 => (.undef, [], 0)
  | i, fuel + 1 =>
    match attempts i with
    | .networkFailure =>
      if i = retries - 1 then (.thrown .networkError, [], 1)
      else
        let rest := fetchAux attempts retries backoff (i + 1) fuel
        (rest.1, backoff * 2 ^ i :: rest.2.1, rest.2.2 + 1)
    | .response status statusText retryAfter body =>
      if status = 429 then
        let rest := fetchAux attempts retries backoff (i + 1) fuel
        (rest.1, retryAfter.getD (backoff * 2 ^ i) * 1000 :: rest.2.1, rest.2.2 + 1)
      else if 200 ≤ status ∧ status ≤ 299 then
        (.success body, [], 1)
      else if i = retries - 1 then
        (.thrown (.httpError status statusText), [], 1)
      else
        let rest := fetchAux attempts retries backoff (i + 1) fuel
        (rest.1, backoff * 2 ^ i :: rest.2.1, rest.2.2 + 1)

/-- `fetchWithRetry(url, retries, backoff)` over the attempt oracle:
the loop starts at `i = 0` with `retries` iterations available. -/
def fetchWithRetry {α : Type} (attempts : Nat → FetchOutcome α) (retries backoff : Nat) :
    FetchResult α × List Nat × Nat :=
  fetchAux attempts retries backoff 0 retries

/-- An endpoint that always answers 429 with header `Retry-After: 2`
(scenario 3 of the spec). -/
def always429RetryAfter2 : Nat → FetchOutcome Unit :=
  fun _ => .response 429 "Too Many Requests" (some 2) ()

/-- An endpoint that always answers 404 with no `Retry-After` header. -/
def always404 : Nat → FetchOutcome Unit :=
  fun _ => .response 404 "Not Found" none ()

/-- An endpoint that always answers 429 with no `Retry-After` header. -/
def always429NoHeader : Nat → FetchOutcome Unit :=
  fun _ => .response 429 "Too Many Requests" none ()

/-- An endpoint that always succeeds with status 200. -/
def alwaysOk : Nat → FetchOutcome Unit :=
  fun _ => .response 200 "OK" none ()

/-! ## Claim theorems -/

/-- C1: for every price series and positive period, `calculateEMA` returns
the absent marker exactly when the series is shorter than the period;
otherwise it folds the update `ema = p * k + ema * (1 - k)` with
`k = 2 / (period + 1)` left-to-right over the prices at index ≥ period,
seeded with the arithmetic mean of the first `period` prices; when the
length equals the period the result is exactly the mean. -/
theorem calculateEMA_spec (prices : List ℚ) (period : Nat) (hP : 0 < period) :
    (prices.length < period → calculateEMA prices period = none) ∧
    (period ≤ prices.length →
      calculateEMA prices period =
        some ((prices.drop period).foldl
          (fun ema p => p * (2 / ((period : ℚ) + 1)) + ema * (1 - 2 / ((period : ℚ) + 1)))
          ((prices.take period).sum / (period : ℚ)))) ∧
    (prices.length = period → calculateEMA prices period = some (prices.sum / (period : ℚ))) := by
  refine ⟨fun h => ?_, fun h => ?_, fun h => ?_⟩
  · rw [calculateEMA_eq, if_pos h]
  · rw [calculateEMA_eq, if_neg (Nat.not_lt.mpr h)]
    rfl
  · rw [calculateEMA_eq, if_neg (by omega), ← h, List.drop_length, List.take_length,
      List.foldl_nil]

/-- Witness for C1 at scenario 2 of the spec: series `[1..8]`, period 7,
seed mean 4, one smoothing step with `k = 1/4` gives 5. -/
theorem calculateEMA_spec_witness :
    0 < 7 ∧ calculateEMA [1, 2, 3, 4, 5, 6, 7, 8] 7 = some 5 := by
  refine ⟨by decide, ?_⟩
  rw [(calculateEMA_spec [1, 2, 3, 4, 5, 6, 7, 8] 7 (by decide)).2.1 (by decide)]
  norm_num

/-- C7: for every series and every period of the requested period set, the
entry built for that period in the `emaValues` mapping is absent iff the
series is shorter than the period. -/
theorem emaEntry_absent_iff (prices : List ℚ) (period : Nat)
    (hmem : period ∈ emaPeriods) :
    emaEntry prices period = none ↔ prices.length < period := by
  unfold emaEntry
  by_cases h : period ≤ prices.length
  · rw [if_pos h, calculateEMA_eq, if_neg (Nat.not_lt.mpr h)]
    simp
    omega
  · rw [if_neg h]
    simp
    omega

/-- Witness for C7: period 7 on the empty series is absent. -/
theorem emaEntry_absent_iff_witness :
    7 ∈ emaPeriods ∧ (emaEntry [] 7 = none ↔ ([] : List ℚ).length < 7) :=
  ⟨by decide, emaEntry_absent_iff [] 7 (by decide)⟩

/-- C8: for a period already satisfied by the series, recomputing
`calculateEMA` on the series with one more price appended equals one step
of the smoothing update applied to the previous result. -/
theorem calculateEMA_append (prices : List ℚ) (p : ℚ) (period : Nat)
    (hP : 0 < period) (hlen : period ≤ prices.length) :
    calculateEMA (prices ++ [p]) period =
      (calculateEMA prices period).map
        (fun prev => p * (2 / ((period : ℚ) + 1)) + prev * (1 - 2 / ((period : ℚ) + 1))) := by
  rw [calculateEMA_eq, calculateEMA_eq, if_neg (Nat.not_lt.mpr hlen),
    if_neg (by simp; omega), List.take_append_of_le_length hlen,
    List.drop_append_of_le_length hlen, List.foldl_append]
  rfl

/-- Witness for C8: appending 5 to `[1, 2, 4]` with period 2. -/
theorem calculateEMA_append_witness :
    calculateEMA ([1, 2, 4] ++ [5]) 2 =
      (calculateEMA [1, 2, 4] 2).map
        (fun prev => 5 * (2 / (((2 : Nat) : ℚ) + 1)) + prev * (1 - 2 / (((2 : Nat) : ℚ) + 1))) :=
  calculateEMA_append [1, 2, 4] 5 2 (by decide) (by decide)

/-- C9: the only absent guard of `calculateEMA` is `prices.length < period`,
which is false for period 0 on every series (the empty one included), so
the function does not return the absent marker there and its seed is the
division of the first-window sum by the period, a division by zero. -/
theorem calculateEMA_period_zero (prices : List ℚ) :
    calculateEMA prices 0 ≠ none ∧
    calculateEMA prices 0 =
      some (emaLoop prices (2 / (((0 : Nat) : ℚ) + 1)) 0 prices.length
        (sumLoop prices 0 / ((0 : Nat) : ℚ))) := by
  constructor
  · unfold calculateEMA
    rw [if_neg (Nat.not_lt_zero _)]
    simp
  · unfold calculateEMA
    rw [if_neg (Nat.not_lt_zero _)]
    simp

/-- C5 counterexample: with every EMA absent the tally is `(0, 0)`, the
percentage is 0, and since `0 < 40` the label chain yields `Bearish` —
not `Neutral` as the claim states. -/
theorem signalSummary_allAbsent_counterexample :
    tallyCounts 100 (fun _ => none) = (0, 0) ∧
    bullishPercentage 0 0 = 0 ∧
    overallSignal (bullishPercentage 0 0) = Signal.Bearish ∧
    Signal.Bearish ≠ Signal.Neutral := by
  refine ⟨rfl, rfl, ?_, by decide⟩
  rw [show bullishPercentage 0 0 = 0 from rfl]
  unfold overallSignal
  norm_num

/-- C5 amended: the percentage is `bullishCount / (bullishCount +
bearishCount) * 100` with 0 for an empty denominator; the label is
`Bullish` iff the percentage is strictly above 60, `Bearish` iff it is
strictly below 40, `Neutral` otherwise (so exactly 60 or exactly 40 give
`Neutral`); but when every EMA is absent the percentage 0 labels
`Bearish`, not `Neutral`. -/
theorem signalSummary_spec :
    (∀ b r : Nat, bullishPercentage b r =
      if b + r = 0 then 0 else ((b : ℚ) / ((b : ℚ) + (r : ℚ))) * 100) ∧
    (∀ pct : ℚ, (overallSignal pct = Signal.Bullish ↔ 60 < pct)) ∧
    (∀ pct : ℚ, (overallSignal pct = Signal.Bearish ↔ pct < 40)) ∧
    (∀ pct : ℚ, (overallSignal pct = Signal.Neutral ↔ 40 ≤ pct ∧ pct ≤ 60)) ∧
    overallSignal 60 = Signal.Neutral ∧
    overallSignal 40 = Signal.Neutral ∧
    (∀ price : ℚ, tallyCounts price (fun _ => none) = (0, 0)) ∧
    overallSignal (bullishPercentage 0 0) = Signal.Bearish := by
  have hb : ∀ pct : ℚ, (overallSignal pct = Signal.Bullish ↔ 60 < pct) := by
    intro pct
    unfold overallSignal
    split_ifs with h1 h2 <;> simp <;> linarith
  have hr : ∀ pct : ℚ, (overallSignal pct = Signal.Bearish ↔ pct < 40) := by
    intro pct
    unfold overallSignal
    split_ifs with h1 h2 <;> simp <;> linarith
  have hn : ∀ pct : ℚ, (overallSignal pct = Signal.Neutral ↔ 40 ≤ pct ∧ pct ≤ 60) := by
    intro pct
    unfold overallSignal
    split_ifs with h1 h2
    · exact iff_of_false (by simp) (fun h => absurd h1 (not_lt.mpr h.2))
    · exact iff_of_false (by simp) (fun h => absurd h2 (not_lt.mpr h.1))
    · exact ⟨fun _ => ⟨le_of_not_lt h2, le_of_not_lt h1⟩, fun _ => rfl⟩
  refine ⟨?_, hb, hr, hn, ?_, ?_, fun _ => rfl, ?_⟩
  · intro b r
    unfold bullishPercentage
    rcases Nat.eq_zero_or_pos (b + r) with h | h
    · rw [if_neg (by omega), if_pos h]
    · rw [if_pos h, if_neg (by omega)]
  · exact (hn 60).mpr (by norm_num)
  · exact (hn 40).mpr (by norm_num)
  · rw [show bullishPercentage 0 0 = 0 from rfl]
    exact (hr 0).mpr (by norm_num)

/-- C6 counterexample: a present EMA equal to 0 is classified `unknown`,
though the claim says only an absent EMA may be. -/
theorem getPricePosition_zero_counterexample :
    getPricePosition 100 (some 0) = PricePosition.unknown ∧
    some (0 : ℚ) ≠ none := by
  constructor
  · simp [getPricePosition]
  · simp

/-- C6 amended: `getPricePosition` returns `unknown` iff the EMA value is
absent or equal to 0 (both are falsy in JS); for a present nonzero EMA it
returns `above` / `below` / `equal` by comparing the price with it. -/
theorem getPricePosition_spec (price : ℚ) (ema : Option ℚ) :
    (getPricePosition price ema = PricePosition.unknown ↔ ema = none ∨ ema = some 0) ∧
    (∀ e : ℚ, ema = some e → e ≠ 0 →
      getPricePosition price ema =
        if price > e then PricePosition.above
        else if price < e then PricePosition.below
        else PricePosition.equal) := by
  constructor
  · cases ema with
    | none => simp [getPricePosition]
    | some e =>
      rw [getPricePosition]
      split_ifs with h0 h1 h2 <;> simp [h0]
  · intro e he hne
    subst he
    rw [getPricePosition, if_neg hne]

/-- Witness for C6 amended, scenario 4 of the spec:
`getPricePosition(105, 100) = above`. -/
theorem getPricePosition_spec_witness :
    getPricePosition 105 (some 100) = PricePosition.above := by
  rw [(getPricePosition_spec 105 (some 100)).2 100 rfl (by norm_num)]
  norm_num

theorem fetchAux_always429RetryAfter2 (retries backoff : Nat) :
    ∀ (fuel i : Nat), fetchAux always429RetryAfter2 retries backoff i fuel =
      (FetchResult.undef, List.replicate fuel 2000, fuel) := by
  intro fuel
  induction fuel with
  | zero => intro i; rfl
  | succ fuel ih =>
    intro i
    rw [fetchAux]
    simp [always429RetryAfter2, ih (i + 1), List.replicate_succ]

/-- C2 counterexample: against an endpoint that always answers 429 with
`Retry-After: 2`, `fetchWithRetry` with a budget of 3 attempts does not
throw; the loop runs out and the call resolves to `undefined`. -/
theorem fetchWithRetry_429_no_throw_counterexample :
    (fetchWithRetry always429RetryAfter2 3 1000).1 = FetchResult.undef ∧
    (fetchWithRetry always429RetryAfter2 3 1000).2.1 = [2000, 2000, 2000] ∧
    ¬ ∃ e : JsError, (fetchWithRetry always429RetryAfter2 3 1000).1 = FetchResult.thrown e := by
  refine ⟨rfl, rfl, ?_⟩
  rintro ⟨e, h⟩
  rw [show (fetchWithRetry always429RetryAfter2 3 1000).1 = FetchResult.undef from rfl] at h
  cases h

/-- C2 amended: against an endpoint that always answers 429 with
`Retry-After: 2`, every attempt sleeps exactly 2000 ms (hence at least
2000 ms before each retry), all `retries` GETs are issued, and after
exhausting the budget the call resolves to `undefined` instead of
throwing. -/
theorem fetchWithRetry_429_exhaustion (retries backoff : Nat) :
    fetchWithRetry always429RetryAfter2 retries backoff =
      (FetchResult.undef, List.replicate retries 2000, retries) :=
  fetchAux_always429RetryAfter2 retries backoff retries 0

/-- C3 counterexample: an endpoint that always answers 404 with a budget
of 2 attempts: the HTTP error thrown on attempt 0 is caught by the retry
loop, one backoff sleep of 1000 ms happens and a second GET is issued —
the terminal status is retried, not surfaced immediately. -/
theorem fetchWithRetry_404_counterexample :
    fetchWithRetry always404 2 1000 =
      (FetchResult.thrown (JsError.httpError 404 "Not Found"), [1000], 2) ∧
    (fetchWithRetry always404 2 1000).2.1 ≠ [] ∧
    (fetchWithRetry always404 2 1000).2.2 ≠ 1 := by
  refine ⟨rfl, ?_, ?_⟩ <;> decide

/-- C3 amended: a response with a non-429 non-success status at attempt
`i` makes `fetchWithRetry` throw an `HttpError` carrying the status code
and text, and the error propagates immediately — with no backoff sleep
and no further GET — only when `i` is the final attempt; on any earlier
attempt the error is caught, one backoff sleep of `backoff * 2 ^ i` ms is
performed, and the loop issues the next GET. -/
theorem fetchAux_terminal_http {α : Type} (attempts : Nat → FetchOutcome α)
    (retries backoff i fuel status : Nat) (text : String) (ra : Option Nat) (body : α)
    (hatt : attempts i = .response status text ra body)
    (h429 : status ≠ 429) (hok : ¬ (200 ≤ status ∧ status ≤ 299)) :
    (i = retries - 1 →
      fetchAux attempts retries backoff i (fuel + 1) =
        (FetchResult.thrown (JsError.httpError status text), [], 1)) ∧
    (i ≠ retries - 1 →
      fetchAux attempts retries backoff i (fuel + 1) =
        ((fetchAux attempts retries backoff (i + 1) fuel).1,
          backoff * 2 ^ i :: (fetchAux attempts retries backoff (i + 1) fuel).2.1,
          (fetchAux attempts retries backoff (i + 1) fuel).2.2 + 1)) := by
  constructor
  · intro hi
    subst hi
    rw [fetchAux]
    simp [hatt, h429, hok]
  · intro hi
    rw [fetchAux]
    simp [hatt, h429, hok, hi]

/-- Witness for C3 amended: a 404 on the final attempt (i = 1 of 2)
throws immediately with no sleep and a single GET in that iteration. -/
theorem fetchAux_terminal_http_witness :
    fetchAux always404 2 1000 1 (0 + 1) =
      (FetchResult.thrown (JsError.httpError 404 "Not Found"), [], 1) :=
  (fetchAux_terminal_http always404 2 1000 1 0 404 "Not Found" none ()
    rfl (by decide) (by decide)).1 rfl

/-- C4: on a 429 whose headers carry no `Retry-After` value, the fallback
`backoff * 2 ^ i` is fed through the same seconds-to-milliseconds
conversion as a header value, so the duration slept before the next
iteration is `backoff * 2 ^ i * 1000` milliseconds. -/
theorem fetchAux_429_fallback_unit {α : Type} (attempts : Nat → FetchOutcome α)
    (retries backoff i fuel : Nat) (text : String) (body : α)
    (hatt : attempts i = .response 429 text none body) :
    fetchAux attempts retries backoff i (fuel + 1) =
      ((fetchAux attempts retries backoff (i + 1) fuel).1,
        backoff * 2 ^ i * 1000 :: (fetchAux attempts retries backoff (i + 1) fuel).2.1,
        (fetchAux attempts retries backoff (i + 1) fuel).2.2 + 1) := by
  rw [fetchAux]
  simp [hatt]

/-- Witness for C4: attempt 0 of a header-less 429 with `backoff = 1000`
sleeps `1000 * 2 ^ 0 * 1000` ms. -/
theorem fetchAux_429_fallback_unit_witness :
    fetchAux always429NoHeader 3 1000 0 (2 + 1) =
      ((fetchAux always429NoHeader 3 1000 1 2).1,
        1000 * 2 ^ 0 * 1000 :: (fetchAux always429NoHeader 3 1000 1 2).2.1,
        (fetchAux always429NoHeader 3 1000 1 2).2.2 + 1) :=
  fetchAux_429_fallback_unit always429NoHeader 3 1000 0 2 "Too Many Requests" () rfl

theorem fetchAux_bounds {α : Type} (attempts : Nat → FetchOutcome α) (retries backoff : Nat) :
    ∀ (fuel i : Nat),
      (fetchAux attempts retries backoff i fuel).2.2 ≤ fuel ∧
      (fetchAux attempts retries backoff i fuel).2.1.length ≤ fuel := by
  intro fuel
  induction fuel with
  | zero => intro i; exact ⟨Nat.le_refl 0, Nat.le_refl 0⟩
  | succ fuel ih =>
    intro i
    rw [fetchAux]
    cases hatt : attempts i with
    | networkFailure =>
      by_cases hi : i = retries - 1 <;>
        simp [hi] <;> have h := ih (i + 1) <;> omega
    | response status text ra body =>
      by_cases h429 : status = 429
      · simp [h429]
        have h := ih (i + 1)
        omega
      · by_cases hok : 200 ≤ status ∧ status ≤ 299
        · simp [h429, hok]
        · by_cases hi : i = retries - 1 <;>
            simp [h429, hok, hi] <;> have h := ih (i + 1) <;> omega

/-- C10: for every attempt oracle, budget of at least one attempt and
backoff, `fetchWithRetry` issues at most `retries` GET requests and
performs at most `retries` sleeps before producing its result: the loop
terminates once the attempt budget is exhausted. -/
theorem fetchWithRetry_resource_bound {α : Type} (attempts : Nat → FetchOutcome α)
    (retries backoff : Nat) (hr : 1 ≤ retries) :
    (fetchWithRetry attempts retries backoff).2.2 ≤ retries ∧
    (fetchWithRetry attempts retries backoff).2.1.length ≤ retries :=
  fetchAux_bounds attempts retries backoff retries 0

/-- Witness for C10: one attempt against an always-succeeding endpoint. -/
theorem fetchWithRetry_resource_bound_witness :
    1 ≤ 1 ∧
    ((fetchWithRetry alwaysOk 1 1000).2.2 ≤ 1 ∧
      (fetchWithRetry alwaysOk 1 1000).2.1.length ≤ 1) :=
  ⟨by decide, fetchWithRetry_resource_bound alwaysOk 1 1000 (by decide)⟩

end EmaJsx
